import Mathlib

/-!
Verification model of `tool.py` from the img2pdf-tool-for-jmcomic repository.

The source is a single Python module with five functions:
`get_image_formats`, `images_to_pdf`, `merge_pdfs`, `batch_chapter_to_pdfs`
and `zip_pdfs`.  The model below is a shallow embedding: all filesystem and
library effects (directory listings, per-image decode success, the optional
`img2pdf` and `PyPDF2` libraries, write success) are supplied by explicit
environment records, and each Python function becomes a pure Lean function
on those records, mirroring the source's control flow branch by branch.
-/

/-! ### String helpers: `os.path.splitext`, `str.lower`, Python `int()` -/

/-- Index of the last occurrence of a character in a list, if any
(`str.rfind` on a character). -/
def lastIdxOf (c : Char) : List Char → Option Nat
  | [] => none
  | a :: as =>
    match lastIdxOf c as with
    | some i => some (i + 1)
    | none => if a = c then some 0 else none

/-- Model of `os.path.splitext` for plain entry names (no path separator):
split at the last dot, unless every character before that dot is itself a
dot (so `.bashrc` and `...` do not split), exactly as in `posixpath`. -/
def splitext (s : String) : String × String :=
  let cs := s.data
  match lastIdxOf '.' cs with
  | none => (s, "")
  | some i =>
    if (cs.take i).all (· = '.') then (s, "")
    else (⟨cs.take i⟩, ⟨cs.drop i⟩)

/-- ASCII lower-casing of one character, as `str.lower` acts on the
ASCII range (filenames here are ASCII; written structurally so that it
evaluates by reduction). -/
def lowerChar (c : Char) : Char :=
  if 'A' ≤ c && c ≤ 'Z' then Char.ofNat (c.toNat + 32) else c

/-- Lower-cased extension of a filename:
`os.path.splitext(filename)[1].lower()`. -/
def extLower (s : String) : String :=
  ⟨(splitext s).2.data.map lowerChar⟩

/-- Digit run of Python's integer literal grammar after the first digit:
digits optionally separated by single underscores, accumulating the value.
A trailing or doubled underscore is rejected, as in Python. -/
def digitsCore (acc : Nat) : List Char → Option Nat
  | [] => some acc
  | '_' :: c :: cs =>
    if c.isDigit then digitsCore (acc * 10 + (c.toNat - 48)) cs else none
  | c :: cs =>
    if c.isDigit then digitsCore (acc * 10 + (c.toNat - 48)) cs else none

/-- Nonempty digit run with optional underscore separators. -/
def digitsVal : List Char → Option Nat
  | [] => none
  | c :: cs => if c.isDigit then digitsCore (c.toNat - 48) cs else none

/-- Surrounding-whitespace strip of `int()`'s argument (`str.strip` on
ASCII whitespace). -/
def pyStrip (cs : List Char) : List Char :=
  ((cs.dropWhile Char.isWhitespace).reverse.dropWhile Char.isWhitespace).reverse

/-- Model of Python `int(s)` on ASCII data: strip surrounding whitespace,
allow one optional sign, then a nonempty digit run with optional single
underscores between digits.  Returns `none` where Python raises
`ValueError`. -/
def pyInt (s : String) : Option Int :=
  match pyStrip s.data with
  | '+' :: rest => (digitsVal rest).map Int.ofNat
  | '-' :: rest => (digitsVal rest).map (fun n => -(n : Int))
  | rest => (digitsVal rest).map Int.ofNat

/-! ### Sorting (`images_to_pdf` lines 52-55, `batch_chapter_to_pdfs`) -/

/-- Numeric sort key of a filename: `int(os.path.splitext(x)[0])`.
Only used when every name parses, so the default is never observed. -/
def numKey (f : String) : Int :=
  (pyInt (splitext f).1).getD 0

/-- Strict code-point lexicographic comparison of character lists, the
order Python uses on strings (first differing character decides; a
proper prefix is smaller). -/
def charsLt : List Char → List Char → Bool
  | _, [] => false
  | [], _ :: _ => true
  | a :: as, b :: bs => a < b || (a = b && charsLt as bs)

/-- Boolean string comparison used for the lexicographic fallback sort:
`a ≤ b` in Python's code-point order (shown below to agree with
Mathlib's linear order on `String`). -/
def strLe (a b : String) : Bool :=
  !(charsLt b.data a.data)

/-- Does every base name (extension stripped) parse as an integer?
Python's `list.sort(key=...)` computes all keys before moving any element,
so a single `ValueError` leaves the list untouched and the `except` branch
re-sorts the original list: the fallback is all-or-nothing. -/
def allNumeric (files : List String) : Bool :=
  files.all (fun f => (pyInt (splitext f).1).isSome)

/-- The sort performed on the filtered filename list in `images_to_pdf`:
numeric by parsed base name when every base name parses, otherwise a full
lexicographic sort of the whole list.  Python's `list.sort` is stable, so
its output is the unique stable rearrangement that is monotone for the
key; insertion sort is stable too, hence produces the identical list
(and, unlike well-founded merge sort, evaluates by kernel reduction). -/
def pySortFiles (files : List String) : List String :=
  if allNumeric files then
    files.insertionSort (fun a b => numKey a ≤ numKey b)
  else
    files.insertionSort (fun a b => strLe a b = true)

/-! ### Extension filtering and `get_image_formats` -/

/-- The allow-list of image extensions in `images_to_pdf`. -/
def allowed_extensions : List String :=
  [".jpg", ".jpeg", ".png", ".webp", ".bmp"]

/-- Is this filename's lower-cased extension in the allow-list? -/
def allowedExt (name : String) : Bool :=
  allowed_extensions.contains (extLower name)

/-- Is this filename's extension one the fast `img2pdf` path supports? -/
def fastExt (name : String) : Bool :=
  [".jpg", ".jpeg", ".png"].contains (extLower name)

/-- Model of `get_image_formats`: the set of extensions (as a deduplicated
list) and the flag `unsupported_by_img2pdf`, true iff some extension is
outside `{.jpg, .jpeg, .png}`. -/
def get_image_formats (image_files : List String) : List String × Bool :=
  ((image_files.map extLower).dedup,
   image_files.any (fun f => !fastExt f))

/-! ### Environment for `images_to_pdf`

Effects of `images_to_pdf` are abstracted into a record: availability of
the optional libraries, the directory listing (`none` models the
`FileNotFoundError` from `os.scandir`), and success of the fast encoder,
of `Image.open` per filename, of each batch's `save`, and of the merge
write. -/

/-- Batch size constant `BATCH_SIZE` of the source. -/
def BATCH_SIZE : Nat := 10

/-- One `os.scandir` entry of the image directory: a name and whether
`entry.is_file()` holds. -/
structure DirEntry where
  name : String
  isFile : Bool
deriving Repr, DecidableEq

/-- Environment of one `images_to_pdf` call. -/
structure Env where
  /-- `IMG2PDF_AVAILABLE`: the `img2pdf` import succeeded. -/
  img2pdfAvailable : Bool
  /-- The `from PyPDF2 import PdfMerger` inside `merge_pdfs` succeeds. -/
  pypdf2Available : Bool
  /-- Directory listing; `none` models `FileNotFoundError`. -/
  listDir : Option (List DirEntry)
  /-- The `img2pdf.convert` call and surrounding write succeed. -/
  fastEncodeOk : Bool
  /-- `Image.open` (and RGB conversion) succeeds for this filename. -/
  openOk : String → Bool
  /-- The PIL `save` of batch number `i` (0-based) succeeds. -/
  saveOk : Nat → Bool
  /-- The `merger.write` call inside `merge_pdfs` succeeds. -/
  mergeWriteOk : Bool

/-- The sorted list of eligible image filenames of a directory listing:
files whose lower-cased extension is in the allow-list, sorted by
`pySortFiles`. -/
def sortedImageFiles (entries : List DirEntry) : List String :=
  pySortFiles ((entries.filter (fun e => e.isFile && allowedExt e.name)).map (fun e => e.name))

/-- The batch slices of the PIL path: slice `i` is
`image_files[i*BATCH_SIZE : min(i*BATCH_SIZE+BATCH_SIZE, total)]`, for
`i` below `batch_count = ceil(total / BATCH_SIZE)`. -/
def batchSlices (files : List String) : List (List String) :=
  let total := files.length
  let batch_count := (total + BATCH_SIZE - 1) / BATCH_SIZE
  (List.range batch_count).map (fun i =>
    (files.drop (i * BATCH_SIZE)).take (min (i * BATCH_SIZE + BATCH_SIZE) total - i * BATCH_SIZE))

/-- The images of a batch that `Image.open` accepts, in batch order
(the `except` around `Image.open` skips the rest). -/
def openedIn (env : Env) (b : List String) : List String :=
  b.filter env.openOk

/-- Decoded-buffer events of one batch: one `+1` per successful open,
then one `-1` per buffer when the closing loop at the end of the batch
releases them all, before the next batch starts. -/
def batchTrace (env : Env) (b : List String) : List Int :=
  (openedIn env b).map (fun _ => (1 : Int)) ++ (openedIn env b).map (fun _ => (-1 : Int))

/-- The whole open/close event trace of the PIL path. -/
def openEvents (env : Env) (files : List String) : List Int :=
  ((batchSlices files).map (batchTrace env)).flatten

/-- The page lists of the partial PDFs (`temp_pdfs`): one entry per batch
that had at least one openable image and whose `save` succeeded, holding
that batch's opened filenames in order. -/
def tempPdfPages (env : Env) (files : List String) : List (List String) :=
  (batchSlices files).enum.filterMap (fun p =>
    let opened := openedIn env p.2
    if opened.isEmpty then none
    else if env.saveOk p.1 then some opened else none)

/-- Observable outcome of one `images_to_pdf` call. -/
structure ConvResult where
  /-- The Python return value: `some path` or `none` (for `None`). -/
  result : Option String
  /-- Page list of the produced PDF (filenames in page order), when one
  was produced by a modelled encode. -/
  pages : Option (List String)
  /-- The img2pdf whole-directory strategy was attempted. -/
  fastAttempted : Bool
  /-- The PIL batch path was entered. -/
  usedBatch : Bool
  /-- `len(temp_pdfs)` at the end of the batch loop. -/
  tempPdfCount : Nat
  /-- `merge_pdfs` was invoked on the temp PDFs. -/
  mergeInvoked : Bool
  /-- Decoded-buffer event trace of the batch path. -/
  events : List Int
  /-- Some file was created at the output path (the fast path opens the
  output for writing before encoding, so a failed fast attempt leaves a
  file; a merge write attempt may also leave one). -/
  outputWritten : Bool
deriving Repr, DecidableEq

/-- Endgame of the batch path (`if temp_pdfs: ...` in the source): zero
partial PDFs return `None`; one is copied with `shutil.copy2`; several
are merged, `None` on merge failure.  Merging the temp PDFs always sees
valid (existing, non-empty) inputs, so the inner `merge_pdfs` succeeds
iff `PyPDF2` imports and the write succeeds. -/
def batchFinish (env : Env) (output_pdf_path : String) (fastAttempt : Bool)
    (temps : List (List String)) (evs : List Int) : ConvResult :=
  match temps with
  | [] => ⟨none, none, fastAttempt, true, 0, false, evs, fastAttempt⟩
  | [one] => ⟨some output_pdf_path, some one, fastAttempt, true, 1, false, evs, true⟩
  | more =>
    if env.pypdf2Available && env.mergeWriteOk then
      ⟨some output_pdf_path, some more.flatten, fastAttempt, true, more.length, true, evs, true⟩
    else
      ⟨none, none, fastAttempt, true, more.length, true, evs, fastAttempt || env.pypdf2Available⟩

/-- Model of `images_to_pdf`: list and filter the directory, sort, pick
the strategy, and run the fast path or the batched PIL path. -/
def images_to_pdf (env : Env) (output_pdf_path : String) : ConvResult :=
  match env.listDir with
  | none => ⟨none, none, false, false, 0, false, [], false⟩
  | some entries =>
    let image_files := sortedImageFiles entries
    if image_files.isEmpty then ⟨none, none, false, false, 0, false, [], false⟩
    else
      let contains_unsupported := (get_image_formats image_files).2
      let fastAttempt := env.img2pdfAvailable && !contains_unsupported
      if fastAttempt && env.fastEncodeOk then
        ⟨some output_pdf_path, some image_files, true, false, 0, false, [], true⟩
      else
        batchFinish env output_pdf_path fastAttempt
          (tempPdfPages env image_files) (openEvents env image_files)

/-! ### `merge_pdfs` -/

/-- Does a file of this recorded size pass the validity check
`os.path.exists(p) and os.path.getsize(p) > 0`?  (`none` = missing.) -/
def sizePos (sz : Option Nat) : Bool :=
  match sz with
  | some n => decide (0 < n)
  | none => false

/-- Environment of a standalone `merge_pdfs` call. -/
structure MergeEnv where
  /-- The `from PyPDF2 import PdfMerger` import succeeds. -/
  pypdf2Available : Bool
  /-- Size of the file at a path, `none` when it does not exist. -/
  fileSize : String → Option Nat
  /-- The `merger.write(output_path)` call succeeds. -/
  writeOk : Bool

/-- Observable outcome of `merge_pdfs`. -/
structure MergeResult where
  /-- The boolean return value. -/
  success : Bool
  /-- A write of the output file was attempted. -/
  wroteOutput : Bool
  /-- The inputs handed to `merger.append`, in order. -/
  appended : List String
deriving Repr, DecidableEq

/-- Model of `merge_pdfs`: fail on missing `PyPDF2`; append exactly the
paths that exist with non-zero size; fail without writing when none
remain; otherwise write, and report the write's outcome. -/
def merge_pdfs (menv : MergeEnv) (pdf_paths : List String) : MergeResult :=
  if !menv.pypdf2Available then ⟨false, false, []⟩
  else
    let valid := pdf_paths.filter (fun p => sizePos (menv.fileSize p))
    if valid.isEmpty then ⟨false, false, valid⟩
    else if menv.writeOk then ⟨true, true, valid⟩
    else ⟨false, true, valid⟩

/-! ### `batch_chapter_to_pdfs` -/

/-- One `os.scandir` entry of the album directory: a name and whether
`entry.is_dir()` holds. -/
structure AlbumEntry where
  name : String
  isDir : Bool
deriving Repr, DecidableEq

/-- Environment of a `batch_chapter_to_pdfs` call: the album listing
(`none` models an exception from `os.scandir`), the conversion
environment of each chapter directory, and the filesystem check of the
produced output (`os.path.exists` and `os.path.getsize > 0`). -/
structure AlbumEnv where
  entries : Option (List AlbumEntry)
  convEnv : String → Env
  outputValid : String → Bool

/-- Chapter sort key `int(name)` — the whole name, no extension split. -/
def chapterKey (n : String) : Int :=
  (pyInt n).getD 0

/-- The chapter sort `chapters.sort(key=int)` with lexicographic fallback
on `ValueError`, all-or-nothing exactly as for filenames (stable
insertion sort models the stable Python sort, as in `pySortFiles`). -/
def chapterSort (names : List String) : List String :=
  if names.all (fun n => (pyInt n).isSome) then
    names.insertionSort (fun a b => chapterKey a ≤ chapterKey b)
  else
    names.insertionSort (fun a b => strLe a b = true)

/-- Python truthiness of the `images_to_pdf` return value: `None` and the
empty string are falsy. -/
def truthy : Option String → Bool
  | some p => !(p == "")
  | none => false

/-- Destination path `os.path.join(album_dir, f"\x7bchapter\x7d.pdf")`. -/
def chapterPdfPath (album_dir chapter : String) : String :=
  album_dir ++ "/" ++ chapter ++ ".pdf"

/-- Model of `batch_chapter_to_pdfs`: sort the immediate sub-directories,
convert each to `<album>/<chapter>.pdf`, and keep the path when the
conversion returned a truthy result and the output file exists with
non-zero size.  An exception while scanning returns the (empty) list
collected so far. -/
def batch_chapter_to_pdfs (aenv : AlbumEnv) (album_dir : String) : List String :=
  match aenv.entries with
  | none => []
  | some es =>
    let chapters := chapterSort ((es.filter (fun e => e.isDir)).map (fun e => e.name))
    chapters.filterMap (fun chapter =>
      let pdf_path := chapterPdfPath album_dir chapter
      let result := images_to_pdf (aenv.convEnv chapter) pdf_path
      if truthy result.result && aenv.outputValid pdf_path then some pdf_path else none)

/-! ### `zip_pdfs` -/

/-- Model of `os.path.basename`. -/
def basename (s : String) : String :=
  match lastIdxOf '/' s.data with
  | none => s
  | some i => ⟨s.data.drop (i + 1)⟩

/-- Environment of a `zip_pdfs` call. -/
structure ZipEnv where
  /-- Size of the file at a path, `none` when it does not exist. -/
  fileSize : String → Option Nat
  /-- Creating directories, opening the archive and writing all succeed;
  `false` models an exception (caught, returning `None`). -/
  zipOk : Bool

/-- Observable outcome of `zip_pdfs`. -/
structure ZipResult where
  /-- The Python return value: the zip path, or `none` for `None`. -/
  result : Option String
  /-- An archive file was created at the destination. -/
  archiveCreated : Bool
  /-- Arcnames written into the archive, in order. -/
  entries : List String
deriving Repr, DecidableEq

/-- Model of `zip_pdfs`: an empty input list only warns and performs no
write; otherwise the archive is created and each existing, non-empty PDF
is written under its base name.  An exception is modelled as occurring
before any write. -/
def zip_pdfs (zenv : ZipEnv) (pdf_paths : List String) (zip_path : String) : ZipResult :=
  if pdf_paths.isEmpty then ⟨none, false, []⟩
  else if zenv.zipOk then
    ⟨some zip_path, true, (pdf_paths.filter (fun p => sizePos (zenv.fileSize p))).map basename⟩
  else ⟨none, false, []⟩

/-! ### Helper lemmas on batch slices -/

theorem batchSlices_eq_take_drop (files : List String) :
    batchSlices files =
      (List.range ((files.length + BATCH_SIZE - 1) / BATCH_SIZE)).map
        (fun i => (files.drop (i * BATCH_SIZE)).take BATCH_SIZE) := by
  unfold batchSlices
  apply List.map_congr_left
  intro i _
  apply List.take_eq_take.mpr
  simp only [List.length_drop]
  omega

theorem length_le_batchCount_mul (N : Nat) :
    N ≤ ((N + BATCH_SIZE - 1) / BATCH_SIZE) * BATCH_SIZE := by
  simp only [BATCH_SIZE]
  omega

theorem flatten_chunks :
    ∀ (n : Nat) (l : List String), l.length ≤ n * BATCH_SIZE →
      ((List.range n).map (fun i => (l.drop (i * BATCH_SIZE)).take BATCH_SIZE)).flatten = l := by
  intro n
  induction n with
  | zero =>
    intro l hl
    simp only [Nat.zero_mul, Nat.le_zero, List.length_eq_zero] at hl
    simp [hl]
  | succ n ih =>
    intro l hl
    rw [Nat.succ_mul] at hl
    rw [List.range_succ_eq_map, List.map_cons, List.map_map, List.flatten_cons]
    have hmap :
        (List.map ((fun i => (l.drop (i * BATCH_SIZE)).take BATCH_SIZE) ∘ Nat.succ)
          (List.range n)) =
        (List.range n).map (fun i => ((l.drop BATCH_SIZE).drop (i * BATCH_SIZE)).take BATCH_SIZE) := by
      apply List.map_congr_left
      intro i _
      simp only [Function.comp]
      have harg : Nat.succ i * BATCH_SIZE = BATCH_SIZE + i * BATCH_SIZE := by
        rw [Nat.succ_mul]; omega
      rw [List.drop_drop, harg]
    rw [hmap, ih (l.drop BATCH_SIZE) (by simp only [List.length_drop]; omega)]
    simp only [Nat.zero_mul, List.drop_zero]
    exact List.take_append_drop _ _

theorem flatten_batchSlices (files : List String) :
    (batchSlices files).flatten = files := by
  rw [batchSlices_eq_take_drop]
  exact flatten_chunks _ files (length_le_batchCount_mul files.length)

theorem batchSlices_map_length (files : List String) :
    (batchSlices files).map List.length =
      (List.range ((files.length + BATCH_SIZE - 1) / BATCH_SIZE)).map
        (fun i => min BATCH_SIZE (files.length - i * BATCH_SIZE)) := by
  rw [batchSlices_eq_take_drop, List.map_map]
  apply List.map_congr_left
  intro i _
  simp only [Function.comp, List.length_take, List.length_drop]

theorem mem_batchSlices_length_le (files : List String) :
    ∀ b ∈ batchSlices files, b.length ≤ BATCH_SIZE := by
  intro b hb
  rw [batchSlices_eq_take_drop] at hb
  rcases List.mem_map.mp hb with ⟨i, _, rfl⟩
  simp only [List.length_take]
  omega

/-! ### Peak of the decoded-buffer trace -/

/-- Largest running sum reached while replaying an event list from an
initial count `c` (the empty run included): the peak number of
simultaneously open buffers when `c = 0`. -/
def peakOf (c : Int) : List Int → Int
  | [] => c
  | e :: es => max c (peakOf (c + e) es)

theorem le_peakOf (c : Int) (l : List Int) : c ≤ peakOf c l := by
  induction l generalizing c with
  | nil => exact le_refl c
  | cons e es ih => exact le_max_left _ _

theorem peakOf_append (c : Int) (l1 l2 : List Int) :
    peakOf c (l1 ++ l2) = max (peakOf c l1) (peakOf (c + l1.sum) l2) := by
  induction l1 generalizing c with
  | nil =>
    simp only [List.nil_append, peakOf, List.sum_nil, add_zero]
    exact (max_eq_right (le_peakOf c l2)).symm
  | cons e es ih =>
    show max c (peakOf (c + e) (es ++ l2)) =
      max (max c (peakOf (c + e) es)) (peakOf (c + (e :: es).sum) l2)
    rw [ih (c + e), ← max_assoc, List.sum_cons, ← add_assoc]

theorem peakOf_replicate_one (k : Nat) (c : Int) :
    peakOf c (List.replicate k 1) = c + k := by
  induction k generalizing c with
  | zero => simp [peakOf]
  | succ k ih =>
    rw [List.replicate_succ]
    simp only [peakOf, ih]
    rw [max_eq_right (by omega)]
    push_cast
    ring

theorem peakOf_replicate_negOne (k : Nat) (c : Int) :
    peakOf c (List.replicate k (-1)) = c := by
  induction k generalizing c with
  | zero => rfl
  | succ k ih =>
    rw [List.replicate_succ]
    simp only [peakOf, ih]
    exact max_eq_left (by omega)

theorem batchTrace_eq_replicate (env : Env) (b : List String) :
    batchTrace env b =
      List.replicate (openedIn env b).length 1 ++
      List.replicate (openedIn env b).length (-1) := by
  unfold batchTrace
  rw [List.map_const', List.map_const']

theorem sum_batchTrace (env : Env) (b : List String) :
    (batchTrace env b).sum = 0 := by
  rw [batchTrace_eq_replicate, List.sum_append, List.sum_replicate, List.sum_replicate]
  simp

theorem peakOf_batchTrace (env : Env) (b : List String) :
    peakOf 0 (batchTrace env b) = (openedIn env b).length := by
  rw [batchTrace_eq_replicate, peakOf_append, peakOf_replicate_one,
    peakOf_replicate_negOne, List.sum_replicate]
  simp

theorem peakOf_flatten_traces (env : Env) (bs : List (List String))
    (hb : ∀ b ∈ bs, (openedIn env b).length ≤ BATCH_SIZE) :
    peakOf 0 ((bs.map (batchTrace env)).flatten) ≤ (BATCH_SIZE : Int) := by
  induction bs with
  | nil =>
    simp only [List.map_nil, List.flatten_nil, peakOf]
    positivity
  | cons b bs ih =>
    rw [List.map_cons, List.flatten_cons, peakOf_append, sum_batchTrace, add_zero,
      peakOf_batchTrace]
    have h1 : ((openedIn env b).length : Int) ≤ (BATCH_SIZE : Int) := by
      exact_mod_cast hb b (List.mem_cons_self b bs)
    have h2 := ih (fun x hx => hb x (List.mem_cons_of_mem b hx))
    exact max_le h1 h2

theorem peakOf_openEvents_le (env : Env) (files : List String) :
    peakOf 0 (openEvents env files) ≤ (BATCH_SIZE : Int) := by
  unfold openEvents
  apply peakOf_flatten_traces
  intro b hb
  calc (openedIn env b).length ≤ b.length := List.length_filter_le _ _
    _ ≤ BATCH_SIZE := mem_batchSlices_length_le files b hb

/-! ### Order facts for the two sort relations -/

theorem charsLt_iff : ∀ as bs : List Char, charsLt as bs = true ↔ List.Lex (· < ·) as bs := by
  intro as
  induction as with
  | nil =>
    intro bs
    cases bs with
    | nil =>
      simp only [charsLt, Bool.false_eq_true, false_iff]
      intro h
      cases h
    | cons b bs =>
      simp only [charsLt, true_iff]
      exact List.Lex.nil
  | cons a as ih =>
    intro bs
    cases bs with
    | nil =>
      simp only [charsLt, Bool.false_eq_true, false_iff]
      intro h
      cases h
    | cons b bs =>
      simp only [charsLt, Bool.or_eq_true, Bool.and_eq_true, decide_eq_true_eq]
      constructor
      · rintro (hab | ⟨heq, h⟩)
        · exact List.Lex.rel hab
        · subst heq
          exact List.Lex.cons ((ih bs).mp h)
      · intro h
        cases h with
        | cons h => exact Or.inr ⟨rfl, (ih bs).mpr h⟩
        | rel h => exact Or.inl h

theorem strLe_iff (a b : String) : strLe a b = true ↔ a ≤ b := by
  have hlex : b < a ↔ List.Lex (· < ·) b.data a.data := String.lt_iff_toList_lt
  show (!charsLt b.data a.data) = true ↔ ¬ b < a
  rw [Bool.not_eq_true']
  rw [Bool.eq_false_iff]
  exact not_congr ((charsLt_iff _ _).trans hlex.symm)

theorem strLe_total : ∀ a b : String, strLe a b = true ∨ strLe b a = true := by
  intro a b
  rcases le_total a b with h | h
  · exact Or.inl ((strLe_iff a b).mpr h)
  · exact Or.inr ((strLe_iff b a).mpr h)

theorem strLe_trans : ∀ a b c : String,
    strLe a b = true → strLe b c = true → strLe a c = true := by
  intro a b c hab hbc
  exact (strLe_iff a c).mpr (le_trans ((strLe_iff a b).mp hab) ((strLe_iff b c).mp hbc))

/-! ### Shape lemmas for `images_to_pdf` and `batchFinish` -/

theorem batchFinish_events (env : Env) (p : String) (f : Bool)
    (temps : List (List String)) (evs : List Int) :
    (batchFinish env p f temps evs).events = evs := by
  rcases temps with _ | ⟨a, _ | ⟨b, rest⟩⟩
  · rfl
  · rfl
  · simp only [batchFinish]
    split <;> rfl

theorem batchFinish_usedBatch (env : Env) (p : String) (f : Bool)
    (temps : List (List String)) (evs : List Int) :
    (batchFinish env p f temps evs).usedBatch = true := by
  rcases temps with _ | ⟨a, _ | ⟨b, rest⟩⟩
  · rfl
  · rfl
  · simp only [batchFinish]
    split <;> rfl

theorem batchFinish_fastAttempted (env : Env) (p : String) (f : Bool)
    (temps : List (List String)) (evs : List Int) :
    (batchFinish env p f temps evs).fastAttempted = f := by
  rcases temps with _ | ⟨a, _ | ⟨b, rest⟩⟩
  · rfl
  · rfl
  · simp only [batchFinish]
    split <;> rfl

theorem batchFinish_tempPdfCount (env : Env) (p : String) (f : Bool)
    (temps : List (List String)) (evs : List Int) :
    (batchFinish env p f temps evs).tempPdfCount = temps.length := by
  rcases temps with _ | ⟨a, _ | ⟨b, rest⟩⟩
  · rfl
  · rfl
  · simp only [batchFinish]
    split <;> rfl

theorem images_to_pdf_none (env : Env) (out : String) (hld : env.listDir = none) :
    images_to_pdf env out = ⟨none, none, false, false, 0, false, [], false⟩ := by
  unfold images_to_pdf
  rw [hld]

theorem images_to_pdf_empty (env : Env) (out : String) (entries : List DirEntry)
    (hld : env.listDir = some entries)
    (he : (sortedImageFiles entries).isEmpty = true) :
    images_to_pdf env out = ⟨none, none, false, false, 0, false, [], false⟩ := by
  unfold images_to_pdf
  rw [hld]
  simp only [he, if_true]

theorem images_to_pdf_eq (env : Env) (out : String) (entries : List DirEntry)
    (hld : env.listDir = some entries)
    (hne : (sortedImageFiles entries).isEmpty = false) :
    images_to_pdf env out =
      (if (env.img2pdfAvailable && !(get_image_formats (sortedImageFiles entries)).2)
          && env.fastEncodeOk then
        ⟨some out, some (sortedImageFiles entries), true, false, 0, false, [], true⟩
      else
        batchFinish env out
          (env.img2pdfAvailable && !(get_image_formats (sortedImageFiles entries)).2)
          (tempPdfPages env (sortedImageFiles entries))
          (openEvents env (sortedImageFiles entries))) := by
  unfold images_to_pdf
  rw [hld]
  simp only [hne, Bool.false_eq_true, if_false]

theorem images_events (env : Env) (out : String) :
    (images_to_pdf env out).events = [] ∨
    ∃ files, (images_to_pdf env out).events = openEvents env files := by
  rcases hld : env.listDir with _ | entries
  · rw [images_to_pdf_none env out hld]
    left; rfl
  · cases he : (sortedImageFiles entries).isEmpty with
    | true =>
      rw [images_to_pdf_empty env out entries hld he]
      left; rfl
    | false =>
      rw [images_to_pdf_eq env out entries hld he]
      split
      · left; rfl
      · right
        exact ⟨sortedImageFiles entries, batchFinish_events _ _ _ _ _⟩

/-- C1: for every directory conversion, the filenames are sorted
numerically (by the integer value of the base name) when every base name
parses as an integer, and the entire list is sorted in full lexicographic
order as soon as a single base name fails to parse; in both cases the
result is a permutation of the whole input that is monotone for the one
chosen key, never a mixed partial sort. -/
theorem c1_sort_all_or_nothing (files : List String) :
    (allNumeric files = true →
      (pySortFiles files).Perm files ∧
      (pySortFiles files).Pairwise (fun a b => numKey a ≤ numKey b)) ∧
    (allNumeric files = false →
      (pySortFiles files).Perm files ∧
      (pySortFiles files).Pairwise (fun a b => a ≤ b)) := by
  constructor
  · intro h
    rw [pySortFiles, if_pos h]
    refine ⟨List.perm_insertionSort _ _, ?_⟩
    exact @List.sorted_insertionSort String (fun a b => numKey a ≤ numKey b) _
      ⟨fun a b => le_total _ _⟩ ⟨fun a b c hab hbc => le_trans hab hbc⟩ files
  · intro h
    rw [pySortFiles, if_neg (by simp [h])]
    refine ⟨List.perm_insertionSort _ _, ?_⟩
    have hs := @List.sorted_insertionSort String (fun a b => strLe a b = true) _
      ⟨strLe_total⟩ ⟨strLe_trans⟩ files
    exact hs.imp (fun hab => (strLe_iff _ _).mp hab)

theorem c1_sort_all_or_nothing_witness :
    ((pySortFiles ["10.jpg", "2.jpg", "1.jpg"]).Perm ["10.jpg", "2.jpg", "1.jpg"] ∧
      (pySortFiles ["10.jpg", "2.jpg", "1.jpg"]).Pairwise (fun a b => numKey a ≤ numKey b)) ∧
    ((pySortFiles ["10.jpg", "cover.jpg"]).Perm ["10.jpg", "cover.jpg"] ∧
      (pySortFiles ["10.jpg", "cover.jpg"]).Pairwise (fun a b => a ≤ b)) :=
  ⟨(c1_sort_all_or_nothing ["10.jpg", "2.jpg", "1.jpg"]).1 (by decide),
   (c1_sort_all_or_nothing ["10.jpg", "cover.jpg"]).2 (by decide)⟩

/-- C2: during the batch path the number of simultaneously decoded image
buffers never exceeds `BATCH_SIZE`: the peak of the open/close event
trace of any conversion is at most the batch size, and every batch's
trace sums to zero, i.e. all buffers a batch opened are released before
the next batch begins. -/
theorem c2_decoded_buffers_bounded (env : Env) (out : String) :
    peakOf 0 (images_to_pdf env out).events ≤ (BATCH_SIZE : Int) ∧
    ∀ files : List String, ∀ t ∈ (batchSlices files).map (batchTrace env), t.sum = 0 := by
  constructor
  · rcases images_events env out with h | ⟨files, h⟩ <;> rw [h]
    · decide
    · exact peakOf_openEvents_le env files
  · intro files t ht
    rcases List.mem_map.mp ht with ⟨b, _, rfl⟩
    exact sum_batchTrace env b

/-- C4: the batch path splits the sorted image list into
`ceil(N / BATCH_SIZE)` contiguous slices that concatenate back to the
whole list (no gaps, no overlaps), each of length at most `BATCH_SIZE`,
every non-final slice of length exactly `BATCH_SIZE`; a 25-image list
yields slices of lengths 10, 10 and 5. -/
theorem c4_batch_partition (files : List String) :
    (batchSlices files).flatten = files ∧
    (batchSlices files).length = (files.length + BATCH_SIZE - 1) / BATCH_SIZE ∧
    (∀ b ∈ batchSlices files, b.length ≤ BATCH_SIZE) ∧
    (∀ (i : Nat) (b : List String), i + 1 < (batchSlices files).length →
      (batchSlices files)[i]? = some b → b.length = BATCH_SIZE) ∧
    (files.length = 25 → (batchSlices files).map List.length = [10, 10, 5]) := by
  have hlen : (batchSlices files).length = (files.length + BATCH_SIZE - 1) / BATCH_SIZE := by
    rw [batchSlices_eq_take_drop]
    simp
  refine ⟨flatten_batchSlices files, hlen, mem_batchSlices_length_le files, ?_, ?_⟩
  · intro i b hi hb
    rw [batchSlices_eq_take_drop, List.getElem?_map] at hb
    rw [hlen] at hi
    rw [List.getElem?_range (by omega)] at hb
    simp only [Option.map_some', Option.some_inj] at hb
    rw [← hb]
    simp only [List.length_take, List.length_drop]
    simp only [BATCH_SIZE] at hi ⊢
    omega
  · intro h25
    rw [batchSlices_map_length, h25]
    decide

/-- Concrete 25-image directory used to witness `c4_batch_partition`. -/
def files25 : List String :=
  (List.range 25).map (fun i => toString (i + 1) ++ ".jpg")

theorem c4_batch_partition_witness :
    (batchSlices files25).flatten = files25 ∧
    (batchSlices files25).map List.length = [10, 10, 5] :=
  ⟨(c4_batch_partition files25).1,
   (c4_batch_partition files25).2.2.2.2 (by decide)⟩

/-- C8: a missing source directory, or one with no allowed-extension
file, makes the conversion return an absent result and create no output
file. -/
theorem c8_missing_or_empty_dir (env : Env) (out : String) :
    (env.listDir = none →
      (images_to_pdf env out).result = none ∧
      (images_to_pdf env out).outputWritten = false) ∧
    (∀ entries, env.listDir = some entries →
      entries.filter (fun e => e.isFile && allowedExt e.name) = [] →
      (images_to_pdf env out).result = none ∧
      (images_to_pdf env out).outputWritten = false) := by
  constructor
  · intro h
    rw [images_to_pdf_none env out h]
    exact ⟨rfl, rfl⟩
  · intro entries hld hf
    have he : (sortedImageFiles entries).isEmpty = true := by
      rw [sortedImageFiles, hf]
      rfl
    rw [images_to_pdf_empty env out entries hld he]
    exact ⟨rfl, rfl⟩

/-- Environment whose directory listing raises `FileNotFoundError`. -/
def envNoDir : Env :=
  ⟨true, true, none, true, fun _ => true, fun _ => true, true⟩

/-- Environment whose directory holds no allowed-extension file. -/
def envEmptyDir : Env :=
  ⟨true, true, some [⟨"readme.txt", true⟩, ⟨"sub", false⟩], true, fun _ => true, fun _ => true, true⟩

theorem c8_missing_or_empty_dir_witness :
    ((images_to_pdf envNoDir "o.pdf").result = none ∧
      (images_to_pdf envNoDir "o.pdf").outputWritten = false) ∧
    ((images_to_pdf envEmptyDir "o.pdf").result = none ∧
      (images_to_pdf envEmptyDir "o.pdf").outputWritten = false) :=
  ⟨(c8_missing_or_empty_dir envNoDir "o.pdf").1 rfl,
   (c8_missing_or_empty_dir envEmptyDir "o.pdf").2 _ rfl (by decide)⟩

theorem unsupported_iff_not_all_fast (files : List String) :
    (!(get_image_formats files).2) = files.all fastExt := by
  show (!files.any fun f => !fastExt f) = files.all fastExt
  rw [List.all_eq_not_any_not]

/-- C3: the fast whole-directory path is attempted iff the fast encoder
is available and every filename's extension is in `{.jpg, .jpeg, .png}`
(case-insensitive); a `.webp` or `.bmp` file prevents the fast attempt
and forces the batch path; and when the fast encoder fails the converter
falls through to the batch path, whose result it returns, instead of
returning failure outright. -/
theorem c3_fast_path_strategy (env : Env) (out : String) (entries : List DirEntry)
    (hld : env.listDir = some entries)
    (hne : (sortedImageFiles entries).isEmpty = false) :
    ((images_to_pdf env out).fastAttempted =
      (env.img2pdfAvailable && (sortedImageFiles entries).all fastExt)) ∧
    ((∃ f ∈ sortedImageFiles entries, extLower f = ".webp" ∨ extLower f = ".bmp") →
      (images_to_pdf env out).fastAttempted = false ∧
      (images_to_pdf env out).usedBatch = true) ∧
    ((images_to_pdf env out).fastAttempted = true → env.fastEncodeOk = false →
      (images_to_pdf env out).usedBatch = true ∧
      images_to_pdf env out =
        batchFinish env out true (tempPdfPages env (sortedImageFiles entries))
          (openEvents env (sortedImageFiles entries))) := by
  refine ⟨?_, ?_, ?_⟩
  · rw [images_to_pdf_eq env out entries hld hne]
    split
    · rename_i hcond
      simp only [Bool.and_eq_true] at hcond
      show true = _
      rw [← unsupported_iff_not_all_fast, hcond.1.1, hcond.1.2]
      rfl
    · rw [batchFinish_fastAttempted]
      rw [← unsupported_iff_not_all_fast]
  · intro hex
    have hu : (get_image_formats (sortedImageFiles entries)).2 = true := by
      rcases hex with ⟨f, hf, hext | hext⟩ <;>
      · apply List.any_eq_true.mpr
        refine ⟨f, hf, ?_⟩
        rw [Bool.not_eq_true', fastExt, hext]
        decide
    rw [images_to_pdf_eq env out entries hld hne, hu]
    simp only [Bool.not_true, Bool.and_false, Bool.false_and, Bool.false_eq_true, if_false]
    exact ⟨by rw [batchFinish_fastAttempted], batchFinish_usedBatch _ _ _ _ _⟩
  · intro hfa hem
    rw [images_to_pdf_eq env out entries hld hne, hem] at hfa ⊢
    simp only [Bool.and_false, Bool.false_eq_true, if_false] at hfa ⊢
    rw [batchFinish_fastAttempted] at hfa
    rw [hfa]
    exact ⟨batchFinish_usedBatch _ _ _ _ _, rfl⟩

/-- Environment with a `.webp` file, forcing the batch path. -/
def envWebp : Env :=
  ⟨true, true, some [⟨"1.webp", true⟩, ⟨"2.jpg", true⟩], true, fun _ => true, fun _ => true, true⟩

/-- Environment where the fast encoder is available but raises. -/
def envFastFails : Env :=
  ⟨true, true, some [⟨"1.jpg", true⟩, ⟨"2.jpg", true⟩], false, fun _ => true, fun _ => true, true⟩

theorem c3_fast_path_strategy_witness :
    ((images_to_pdf envWebp "o.pdf").fastAttempted = false ∧
      (images_to_pdf envWebp "o.pdf").usedBatch = true) ∧
    ((images_to_pdf envFastFails "o.pdf").usedBatch = true ∧
      images_to_pdf envFastFails "o.pdf" =
        batchFinish envFastFails "o.pdf" true
          (tempPdfPages envFastFails (sortedImageFiles [⟨"1.jpg", true⟩, ⟨"2.jpg", true⟩]))
          (openEvents envFastFails (sortedImageFiles [⟨"1.jpg", true⟩, ⟨"2.jpg", true⟩]))) :=
  ⟨(c3_fast_path_strategy envWebp "o.pdf" _ rfl (by decide)).2.1
      ⟨"1.webp", by decide, Or.inl (by decide)⟩,
   (c3_fast_path_strategy envFastFails "o.pdf" _ rfl (by decide)).2.2 (by decide) rfl⟩

theorem batchFinish_endgame (env : Env) (p : String) (fa : Bool)
    (temps : List (List String)) (evs : List Int) :
    ((batchFinish env p fa temps evs).tempPdfCount = 0 →
      (batchFinish env p fa temps evs).result = none) ∧
    ((batchFinish env p fa temps evs).tempPdfCount = 1 →
      (batchFinish env p fa temps evs).result = some p ∧
      (batchFinish env p fa temps evs).mergeInvoked = false) ∧
    (2 ≤ (batchFinish env p fa temps evs).tempPdfCount →
      (batchFinish env p fa temps evs).mergeInvoked = true ∧
      ((env.pypdf2Available && env.mergeWriteOk) = false →
        (batchFinish env p fa temps evs).result = none)) := by
  rcases temps with _ | ⟨a, _ | ⟨b, r⟩⟩
  · exact ⟨fun _ => rfl, fun h => by simp [batchFinish] at h, fun h => by simp [batchFinish] at h⟩
  · exact ⟨fun h => by simp [batchFinish] at h, fun _ => ⟨rfl, rfl⟩,
      fun h => by simp [batchFinish] at h⟩
  · simp only [batchFinish]
    split
    · rename_i hok
      refine ⟨fun h => by simp at h, fun h => by simp at h, fun _ => ⟨rfl, fun hmf => ?_⟩⟩
      rw [hok] at hmf
      exact absurd hmf (by decide)
    · exact ⟨fun h => by simp at h, fun h => by simp at h, fun _ => ⟨rfl, fun _ => rfl⟩⟩

/-- C5: at the end of the batch path, zero partial PDFs make the
conversion return an absent result; exactly one partial PDF is copied to
the destination with no merge invoked; with two or more the merger is
invoked, and a merge failure (missing `PyPDF2` or failing write) makes
the conversion return an absent result. -/
theorem c5_batch_endgame (env : Env) (out : String)
    (h : (images_to_pdf env out).usedBatch = true) :
    ((images_to_pdf env out).tempPdfCount = 0 → (images_to_pdf env out).result = none) ∧
    ((images_to_pdf env out).tempPdfCount = 1 →
      (images_to_pdf env out).result = some out ∧
      (images_to_pdf env out).mergeInvoked = false) ∧
    (2 ≤ (images_to_pdf env out).tempPdfCount →
      (images_to_pdf env out).mergeInvoked = true ∧
      ((env.pypdf2Available && env.mergeWriteOk) = false →
        (images_to_pdf env out).result = none)) := by
  rcases hld : env.listDir with _ | entries
  · rw [images_to_pdf_none env out hld] at h
    exact absurd h (by decide)
  · cases he : (sortedImageFiles entries).isEmpty with
    | true =>
      rw [images_to_pdf_empty env out entries hld he] at h
      exact absurd h (by decide)
    | false =>
      rw [images_to_pdf_eq env out entries hld he] at h ⊢
      by_cases hc : ((env.img2pdfAvailable && !(get_image_formats (sortedImageFiles entries)).2)
          && env.fastEncodeOk) = true
      · rw [if_pos hc] at h
        simp at h
      · rw [if_neg hc] at h ⊢
        exact batchFinish_endgame env out _ _ _

/-- Environment driving the batch path with one valid image. -/
def envOneBatch : Env :=
  ⟨false, true, some [⟨"1.jpg", true⟩], true, fun _ => true, fun _ => true, true⟩

theorem c5_batch_endgame_witness :
    ((images_to_pdf envOneBatch "o.pdf").tempPdfCount = 0 →
      (images_to_pdf envOneBatch "o.pdf").result = none) ∧
    ((images_to_pdf envOneBatch "o.pdf").tempPdfCount = 1 →
      (images_to_pdf envOneBatch "o.pdf").result = some "o.pdf" ∧
      (images_to_pdf envOneBatch "o.pdf").mergeInvoked = false) ∧
    (2 ≤ (images_to_pdf envOneBatch "o.pdf").tempPdfCount →
      (images_to_pdf envOneBatch "o.pdf").mergeInvoked = true ∧
      ((envOneBatch.pypdf2Available && envOneBatch.mergeWriteOk) = false →
        (images_to_pdf envOneBatch "o.pdf").result = none)) :=
  c5_batch_endgame envOneBatch "o.pdf" (by decide)

theorem filter_length_partition (p : String → Bool) (l : List String) :
    (l.filter p).length + (l.filter (fun a => !p a)).length = l.length := by
  induction l with
  | nil => rfl
  | cons a l ih =>
    cases hpa : p a <;> simp [List.filter_cons, hpa] <;> omega

theorem tempPdfPages_eq (env : Env) (files : List String)
    (hsave : ∀ i, env.saveOk i = true) :
    tempPdfPages env files = (batchSlices files).filterMap
      (fun b => if (openedIn env b).isEmpty then none else some (openedIn env b)) := by
  unfold tempPdfPages
  conv_rhs => rw [← List.enum_map_snd (batchSlices files)]
  rw [List.filterMap_map]
  apply List.filterMap_congr
  intro p hp
  simp only [Function.comp, hsave p.1, if_true]

theorem flatten_filterMap_nonempty (g : List String → List String) (l : List (List String)) :
    (l.filterMap (fun b => if (g b).isEmpty then none else some (g b))).flatten =
      (l.map g).flatten := by
  induction l with
  | nil => rfl
  | cons a l ih =>
    rw [List.filterMap_cons, List.map_cons, List.flatten_cons]
    cases hg : (g a).isEmpty with
    | false =>
      simp only [hg, Bool.false_eq_true, if_false, List.flatten_cons, ih]
    | true =>
      have hnil : g a = [] := List.isEmpty_iff.mp hg
      simp only [hg, if_true, hnil, List.nil_append, ih]

theorem tempPdfPages_flatten (env : Env) (files : List String)
    (hsave : ∀ i, env.saveOk i = true) :
    (tempPdfPages env files).flatten = files.filter env.openOk := by
  rw [tempPdfPages_eq env files hsave, flatten_filterMap_nonempty (openedIn env)]
  show (List.map (List.filter env.openOk) (batchSlices files)).flatten =
    List.filter env.openOk files
  rw [← List.filter_flatten, flatten_batchSlices]

theorem batchFinish_merge_success (env : Env) (p : String) (fa : Bool)
    (a b : List String) (r : List (List String)) (evs : List Int)
    (hok : (env.pypdf2Available && env.mergeWriteOk) = true) :
    batchFinish env p fa (a :: b :: r) evs =
      ⟨some p, some ((a :: b :: r).flatten), fa, true, (a :: b :: r).length, true, evs, true⟩ := by
  simp only [batchFinish]
  rw [if_pos hok]

/-- C6, amended with the bound `2 ≤ N` the counterexample forces: in the
batch path, a directory of `N ≥ 2` images of which exactly one fails to
open still converts successfully (all saves and the merge succeeding),
and the output holds the `N - 1` decodable images in sorted order. -/
theorem c6_corrupt_image_skipped (env : Env) (out : String) (entries : List DirEntry)
    (hld : env.listDir = some entries)
    (hN : 2 ≤ (sortedImageFiles entries).length)
    (hbad : ((sortedImageFiles entries).filter (fun f => !env.openOk f)).length = 1)
    (hfast : env.img2pdfAvailable = false)
    (hsave : ∀ i, env.saveOk i = true)
    (hpy : env.pypdf2Available = true) (hmw : env.mergeWriteOk = true) :
    (images_to_pdf env out).result = some out ∧
    (images_to_pdf env out).pages = some ((sortedImageFiles entries).filter env.openOk) ∧
    ((sortedImageFiles entries).filter env.openOk).length =
      (sortedImageFiles entries).length - 1 := by
  have hne : (sortedImageFiles entries).isEmpty = false := by
    rcases hfl : sortedImageFiles entries with _ | ⟨x, xs⟩
    · rw [hfl] at hN
      simp at hN
    · rfl
  have hpart := filter_length_partition env.openOk (sortedImageFiles entries)
  have hlen : ((sortedImageFiles entries).filter env.openOk).length =
      (sortedImageFiles entries).length - 1 := by omega
  have hkey : (images_to_pdf env out).result = some out ∧
      (images_to_pdf env out).pages =
        some ((sortedImageFiles entries).filter env.openOk) := by
    rw [images_to_pdf_eq env out entries hld hne, hfast]
    simp only [Bool.false_and, Bool.false_eq_true, if_false]
    have hflat := tempPdfPages_flatten env (sortedImageFiles entries) hsave
    rcases htp : tempPdfPages env (sortedImageFiles entries) with _ | ⟨a, _ | ⟨b, r⟩⟩
    · exfalso
      rw [htp] at hflat
      have hz : ((sortedImageFiles entries).filter env.openOk).length = 0 := by
        rw [← hflat]
        rfl
      omega
    · rw [htp] at hflat
      simp only [List.flatten_cons, List.flatten_nil, List.append_nil] at hflat
      exact ⟨rfl, congrArg some hflat⟩
    · rw [htp] at hflat
      rw [batchFinish_merge_success env out _ a b r _ (by rw [hpy, hmw]; rfl)]
      exact ⟨rfl, congrArg some hflat⟩
  exact ⟨hkey.1, hkey.2, hlen⟩

/-- A one-image directory whose single image is corrupt: every library is
available and every write succeeds, yet conversion returns `None`. -/
def envOneCorrupt : Env :=
  ⟨false, true, some [⟨"1.jpg", true⟩], true, fun _ => false, fun _ => true, true⟩

/-- Counterexample to C6 as stated: for `N = 1` with the single image
corrupt, the conversion does not report success (it returns an absent
result), so the claim fails without a lower bound on `N`. -/
theorem c6_single_corrupt_counterexample :
    (sortedImageFiles [⟨"1.jpg", true⟩]).length = 1 ∧
    ((sortedImageFiles [⟨"1.jpg", true⟩]).filter
      (fun f => !envOneCorrupt.openOk f)).length = 1 ∧
    envOneCorrupt.listDir = some [⟨"1.jpg", true⟩] ∧
    (images_to_pdf envOneCorrupt "o.pdf").result = none :=
  ⟨rfl, rfl, rfl, rfl⟩

/-- Two images, the second corrupt. -/
def envTwoOneCorrupt : Env :=
  ⟨false, true, some [⟨"1.jpg", true⟩, ⟨"2.jpg", true⟩], true,
    fun f => !(f == "2.jpg"), fun _ => true, true⟩

theorem c6_corrupt_image_skipped_witness :
    (images_to_pdf envTwoOneCorrupt "o.pdf").result = some "o.pdf" ∧
    (images_to_pdf envTwoOneCorrupt "o.pdf").pages =
      some ((sortedImageFiles [⟨"1.jpg", true⟩, ⟨"2.jpg", true⟩]).filter
        envTwoOneCorrupt.openOk) ∧
    ((sortedImageFiles [⟨"1.jpg", true⟩, ⟨"2.jpg", true⟩]).filter
      envTwoOneCorrupt.openOk).length =
      (sortedImageFiles [⟨"1.jpg", true⟩, ⟨"2.jpg", true⟩]).length - 1 :=
  c6_corrupt_image_skipped envTwoOneCorrupt "o.pdf" _ rfl (by decide) (by decide) rfl
    (fun i => rfl) rfl rfl

/-- C7: `merge_pdfs` appends exactly the input paths that exist with
non-zero size; when no valid input remains it returns false and writes
no output; one valid plus one zero-byte input merges successfully using
only the valid one. -/
theorem c7_merge_validity_filter (menv : MergeEnv) (paths : List String)
    (hav : menv.pypdf2Available = true) :
    ((merge_pdfs menv paths).appended =
      paths.filter (fun p => sizePos (menv.fileSize p))) ∧
    (paths.filter (fun p => sizePos (menv.fileSize p)) = [] →
      (merge_pdfs menv paths).success = false ∧
      (merge_pdfs menv paths).wroteOutput = false) ∧
    (∀ p q, sizePos (menv.fileSize p) = true → menv.fileSize q = some 0 →
      menv.writeOk = true →
      (merge_pdfs menv [p, q]).success = true ∧
      (merge_pdfs menv [p, q]).appended = [p]) := by
  have hnot : (!menv.pypdf2Available) = false := by rw [hav]; rfl
  refine ⟨?_, ?_, ?_⟩
  · unfold merge_pdfs
    rw [hnot]
    simp only [Bool.false_eq_true, if_false]
    split
    · rfl
    · split <;> rfl
  · intro hemp
    unfold merge_pdfs
    rw [hnot]
    simp only [Bool.false_eq_true, if_false]
    rw [if_pos (by rw [hemp]; rfl)]
    exact ⟨rfl, rfl⟩
  · intro p q hp hq hw
    have hfq : sizePos (menv.fileSize q) = false := by rw [hq]; rfl
    have hfil : ([p, q].filter (fun x => sizePos (menv.fileSize x))) = [p] := by
      simp [List.filter_cons, hp, hfq]
    unfold merge_pdfs
    rw [hnot]
    simp only [Bool.false_eq_true, if_false, hfil]
    rw [if_neg (by simp), if_pos hw]
    exact ⟨rfl, rfl⟩

/-- Merge environment with one valid and one zero-byte PDF. -/
def menvW : MergeEnv :=
  ⟨true, fun p => if p = "a.pdf" then some 5 else if p = "b.pdf" then some 0 else none, true⟩

theorem c7_merge_validity_filter_witness :
    ((merge_pdfs menvW ["a.pdf", "b.pdf"]).appended =
      ["a.pdf", "b.pdf"].filter (fun p => sizePos (menvW.fileSize p))) ∧
    ((merge_pdfs menvW ["a.pdf", "b.pdf"]).success = true ∧
      (merge_pdfs menvW ["a.pdf", "b.pdf"]).appended = ["a.pdf"]) ∧
    ((merge_pdfs menvW ["missing.pdf"]).success = false ∧
      (merge_pdfs menvW ["missing.pdf"]).wroteOutput = false) :=
  ⟨(c7_merge_validity_filter menvW ["a.pdf", "b.pdf"] rfl).1,
   (c7_merge_validity_filter menvW ["a.pdf", "b.pdf"] rfl).2.2 "a.pdf" "b.pdf"
     (by decide) (by decide) rfl,
   (c7_merge_validity_filter menvW ["missing.pdf"] rfl).2.1 (by decide)⟩

theorem filterMap_guard_eq_map_filter {α β : Type} (f : α → β) (p : α → Bool) (l : List α) :
    l.filterMap (fun a => if p a then some (f a) else none) = (l.filter p).map f := by
  induction l with
  | nil => rfl
  | cons a l ih =>
    rw [List.filterMap_cons, List.filter_cons]
    cases hpa : p a <;> simp [ih]

/-- C9: the album driver processes exactly the immediate sub-directories,
in numeric order when all names parse as integers and lexicographic order
otherwise (the sorted chapter list is a monotone permutation of the
sub-directory names), and returns precisely the chapter PDF paths whose
conversion returned a truthy result and whose output file exists
non-empty, in chapter order — a failed chapter is merely filtered out. -/
theorem c9_album_driver (aenv : AlbumEnv) (album : String) (es : List AlbumEntry)
    (h : aenv.entries = some es) :
    batch_chapter_to_pdfs aenv album =
      ((chapterSort ((es.filter (fun e => e.isDir)).map (fun e => e.name))).filter
        (fun ch => truthy (images_to_pdf (aenv.convEnv ch) (chapterPdfPath album ch)).result
          && aenv.outputValid (chapterPdfPath album ch))).map (chapterPdfPath album) ∧
    (chapterSort ((es.filter (fun e => e.isDir)).map (fun e => e.name))).Perm
      ((es.filter (fun e => e.isDir)).map (fun e => e.name)) ∧
    (((es.filter (fun e => e.isDir)).map (fun e => e.name)).all
        (fun n => (pyInt n).isSome) = true →
      (chapterSort ((es.filter (fun e => e.isDir)).map (fun e => e.name))).Pairwise
        (fun a b => chapterKey a ≤ chapterKey b)) ∧
    (((es.filter (fun e => e.isDir)).map (fun e => e.name)).all
        (fun n => (pyInt n).isSome) = false →
      (chapterSort ((es.filter (fun e => e.isDir)).map (fun e => e.name))).Pairwise
        (fun a b => a ≤ b)) := by
  refine ⟨?_, ?_, ?_, ?_⟩
  · unfold batch_chapter_to_pdfs
    rw [h]
    exact filterMap_guard_eq_map_filter (chapterPdfPath album) _ _
  · unfold chapterSort
    split
    · exact List.perm_insertionSort _ _
    · exact List.perm_insertionSort _ _
  · intro hall
    rw [chapterSort, if_pos hall]
    exact @List.sorted_insertionSort String (fun a b => chapterKey a ≤ chapterKey b) _
      ⟨fun a b => le_total _ _⟩ ⟨fun a b c hab hbc => le_trans hab hbc⟩ _
  · intro hall
    rw [chapterSort, if_neg (by simp [hall])]
    have hs := @List.sorted_insertionSort String (fun a b => strLe a b = true) _
      ⟨strLe_total⟩ ⟨strLe_trans⟩ ((es.filter (fun e => e.isDir)).map (fun e => e.name))
    exact hs.imp (fun hab => (strLe_iff _ _).mp hab)

/-- Album with chapters `10`, `2`, `1` and one non-directory entry. -/
def aenvAlbum : AlbumEnv :=
  ⟨some [⟨"10", true⟩, ⟨"2", true⟩, ⟨"1", true⟩, ⟨"cover.jpg", false⟩],
   fun _ => envOneBatch, fun _ => true⟩

theorem c9_album_driver_witness :
    batch_chapter_to_pdfs aenvAlbum "album" =
      ((chapterSort ((([⟨"10", true⟩, ⟨"2", true⟩, ⟨"1", true⟩, ⟨"cover.jpg", false⟩] :
          List AlbumEntry).filter (fun e => e.isDir)).map (fun e => e.name))).filter
        (fun ch => truthy (images_to_pdf (aenvAlbum.convEnv ch)
            (chapterPdfPath "album" ch)).result
          && aenvAlbum.outputValid (chapterPdfPath "album" ch))).map
        (chapterPdfPath "album") :=
  (c9_album_driver aenvAlbum "album" _ rfl).1

/-- C10: a non-empty input list whose paths are all invalid (missing or
zero-byte) still creates the archive, writes zero entries into it, and
returns the archive path — unlike the empty input list, which performs no
write and returns an absent result. -/
theorem c10_zip_all_invalid (zenv : ZipEnv) (paths : List String) (zp : String)
    (hne : paths ≠ [])
    (hinv : ∀ p ∈ paths, sizePos (zenv.fileSize p) = false)
    (hok : zenv.zipOk = true) :
    (zip_pdfs zenv paths zp).result = some zp ∧
    (zip_pdfs zenv paths zp).archiveCreated = true ∧
    (zip_pdfs zenv paths zp).entries = [] ∧
    zip_pdfs zenv [] zp = ⟨none, false, []⟩ := by
  have hne' : paths.isEmpty = false := by
    rcases paths with _ | ⟨a, l⟩
    · exact absurd rfl hne
    · rfl
  have hfil : paths.filter (fun p => sizePos (zenv.fileSize p)) = [] := by
    apply List.filter_eq_nil_iff.mpr
    intro p hp
    rw [hinv p hp]
    exact Bool.false_ne_true
  unfold zip_pdfs
  rw [hne', hok]
  simp only [Bool.false_eq_true, if_false, if_true, hfil]
  refine ⟨?_, ?_, ?_, ?_⟩ <;> trivial

/-- Zip environment where every path is missing. -/
def zenvW : ZipEnv :=
  ⟨fun _ => none, true⟩

theorem c10_zip_all_invalid_witness :
    (zip_pdfs zenvW ["a.pdf"] "o.zip").result = some "o.zip" ∧
    (zip_pdfs zenvW ["a.pdf"] "o.zip").archiveCreated = true ∧
    (zip_pdfs zenvW ["a.pdf"] "o.zip").entries = [] ∧
    zip_pdfs zenvW [] "o.zip" = ⟨none, false, []⟩ :=
  c10_zip_all_invalid zenvW ["a.pdf"] "o.zip" (by decide)
    (fun p _ => rfl) rfl
